import Mathlib

/-
Verification of the PRLM conversation/timeline analysis pipeline
(`src/pr_analyzer/conversation_analyzer.py`, `src/pr_analyzer/timeline_analyzer.py`).

Modelling conventions:
* Timestamps are `Int` seconds since the epoch; the Python code parses ISO-8601
  strings whose chronological order coincides with this order, and buckets by
  calendar date via `datetime.date()`, modelled as floor-division by 86400.
* Python `str.lower()` is modelled on ASCII letters (`lowerChar`); all keyword
  tables in the source are ASCII.
* Python substring tests (`kw in body`) are modelled by `containsKw`.
* The two regular expressions in `_determine_thread_key` are modelled by
  structurally recursive scanners with Python `re.search` (leftmost-match,
  greedy) semantics for those fixed patterns.
* Python `dict` (insertion-ordered) is modelled by association lists where a
  new key is appended at the end.
* Python `float` quantities are modelled by `ℚ`.
-/

namespace PRLM

/-- One discussion utterance (dataclass-like record from `github_client`). -/
structure Comment where
  author : String
  body : String
  created_at : Int
  type : String
deriving DecidableEq, Repr

/-- A formal review record (only the field the analyzers read). -/
structure ReviewRecord where
  author : String
  state : String
  submitted_at : Option Int
deriving DecidableEq, Repr

/-- A commit record (only the fields the analyzers read). -/
structure CommitRecord where
  sha : String
  author : String
  date : Int
deriving DecidableEq, Repr

/-- The PR snapshot consumed by both analyzers. -/
structure PRData where
  author : String
  created_at : Int
  updated_at : Int
  merged_at : Option Int
  closed_at : Option Int
  comments : List Comment
  reviews : List ReviewRecord
  commits : List CommitRecord
deriving DecidableEq, Repr

/-! ### String utilities (Python semantics) -/

/-- Whether the first list is a leading segment of the second (char-by-char). -/
def matchesAt : List Char → List Char → Bool
  | [], _ => true
  | _ :: _, [] => false
  | n :: ns, h :: hs => n == h && matchesAt ns hs

/-- Python `needle in hay` substring test, on char lists. -/
def hasSub (n : List Char) : List Char → Bool
  | [] => matchesAt n []
  | h :: hs => matchesAt n (h :: hs) || hasSub n hs

/-- Python `kw in s` substring test on strings. -/
def containsKw (kw s : String) : Bool := hasSub kw.data s.data

/-- ASCII lower-casing of one character (Python `str.lower` on ASCII input). -/
def lowerChar (c : Char) : Char :=
  if 'A' ≤ c && c ≤ 'Z' then Char.ofNat (c.toNat + 32) else c

/-- Python `s.lower()` (ASCII model). -/
def toLowerStr (s : String) : String := String.mk (s.data.map lowerChar)

/-- The backtick character, `chr 96`. -/
def btick : Char := Char.ofNat 96

/-- Python `[a-zA-Z]` character class. -/
def isAlphaAZ (c : Char) : Bool := ('a' ≤ c && c ≤ 'z') || ('A' ≤ c && c ≤ 'Z')

/-- All characters are in `[a-zA-Z]`. -/
def allAlphaAZ (l : List Char) : Bool := l.all isAlphaAZ

/-- Whether the list contains a dot followed by a nonempty all-letter tail,
with the dot at any position.  Used on the tail of a candidate filename, so
the dot sits at position ≥ 1 of the whole token. -/
def tailDotAlpha : List Char → Bool
  | [] => false
  | c :: rest => (c == '.' && !rest.isEmpty && allAlphaAZ rest) || tailDotAlpha rest

/-- Whether `content` (the text between two backticks) matches the regex body
of the filename rule: one-or-more non-backtick characters, a literal dot, then
one-or-more letters, consuming the whole span up to the closing backtick. -/
def fileToken (content : List Char) : Bool :=
  match content with
  | [] => false
  | _ :: rest => tailDotAlpha rest

/-- State-machine scan for the filename regex search: the first component is
`none` while outside backticks and `some acc` (reversed accumulated content)
inside a backtick pair.  When a pair fails to match, its closing backtick
re-opens a candidate pair, exactly as the leftmost `re.search` would retry
from that position. -/
def fsAux : Option (List Char) → List Char → Option (List Char)
  | _, [] => none
  | none, c :: r => if c == btick then fsAux (some []) r else fsAux none r
  | some acc, c :: r =>
      if c == btick then
        (if fileToken acc.reverse then some acc.reverse else fsAux (some []) r)
      else fsAux (some (c :: acc)) r

/-- Model of `re.search` for the filename pattern of `_determine_thread_key`;
returns the captured group. -/
def fileSearch (s : List Char) : Option (List Char) := fsAux none s

/-- Python `\w` character class (ASCII model). -/
def isWordChar (c : Char) : Bool := isAlphaAZ c || ('0' ≤ c && c ≤ '9') || c == '_'

/-- The maximal leading run of word characters. -/
def takeWordRun : List Char → List Char
  | [] => []
  | c :: r => if isWordChar c then c :: takeWordRun r else []

/-- Model of `re.search` for the mention pattern of `_determine_thread_key`:
the leftmost at-sign followed by at least one word character; returns the
captured maximal word run. -/
def mentionSearch : List Char → Option (List Char)
  | [] => none
  | c :: r =>
      if c == '@' then
        match r with
        | [] => none
        | d :: _ => if isWordChar d then some (takeWordRun r) else mentionSearch r
      else mentionSearch r

/-- Python `sep.join(parts)`. -/
def joinSep (sep : String) : List String → String
  | [] => ""
  | [s] => s
  | s :: rest => s ++ sep ++ joinSep sep rest

/-- Python whitespace for `str.strip()` (ASCII model). -/
def isPySpace (c : Char) : Bool :=
  c == ' ' || c == '\t' || c == '\n' || c == '\r' || c == '\x0b' || c == '\x0c'

/-- Python `s.strip()` (ASCII model). -/
def stripStr (s : String) : String :=
  String.mk (((s.data.dropWhile isPySpace).reverse.dropWhile isPySpace).reverse)

/-- Python `s.split(sep)` for a single-character separator, here a dot. -/
def splitDot : List Char → List (List Char)
  | [] => [[]]
  | c :: r =>
      if c == '.' then [] :: splitDot r
      else
        match splitDot r with
        | [] => [[c]]
        | a :: as => (c :: a) :: as

/-! ### Conversation analyzer (`conversation_analyzer.py`) -/

/-- `CommentThread` dataclass. -/
structure CommentThread where
  thread_id : String
  participants : List String
  comments : List Comment
  topic : String
  resolution_status : String
  thread_type : String
deriving DecidableEq, Repr

/-- The fixed-key `comment_types` counter dict of `_analyze_reviewer_profiles`. -/
structure CommentTypesCount where
  questions : Nat
  suggestions : Nat
  approvals : Nat
  general : Nat
deriving DecidableEq, Repr

/-- `ReviewerProfile` dataclass. -/
structure ReviewerProfile where
  name : String
  total_comments : Nat
  comment_types : CommentTypesCount
  avg_response_time : ℚ
  engagement_level : String
deriving DecidableEq, Repr

/-- `ConversationMetrics` dataclass. -/
structure ConversationMetrics where
  total_threads : Nat
  resolved_threads : Nat
  unresolved_threads : Nat
  avg_responses_per_thread : ℚ
  response_time_avg : ℚ
  most_active_reviewers : List (String × Nat)
  communication_tone : String
deriving DecidableEq, Repr

/-- The `patterns` dictionary of `_analyze_communication_patterns`. -/
structure CommunicationPatterns where
  author_responsiveness : ℚ
  reviewer_follow_up_rate : ℚ
  discussion_depth : ℚ
  conflict_indicators : List String
  collaboration_indicators : List String
deriving DecidableEq, Repr

/-- The dictionary returned by `analyze_conversations`. -/
structure ConversationAnalysis where
  threads : List CommentThread
  reviewer_profiles : List (String × ReviewerProfile)
  metrics : ConversationMetrics
  patterns : CommunicationPatterns
  summary : String
deriving DecidableEq, Repr

/-- `_determine_thread_key`: priority rules assigning a comment to a bucket. -/
def determine_thread_key (comment : Comment) : String :=
  match fileSearch comment.body.data with
  | some g => "file_" ++ String.mk g
  | none =>
  match mentionSearch comment.body.data with
  | some g => "mention_" ++ String.mk g
  | none =>
    if (["lgtm", "looks good", "approved"].any fun k =>
        containsKw k (toLowerStr comment.body)) then "approval"
    else if (["question", "?", "why", "how"].any fun k =>
        containsKw k (toLowerStr comment.body)) then "questions"
    else if (["suggest", "could", "might", "consider"].any fun k =>
        containsKw k (toLowerStr comment.body)) then "suggestions"
    else "general_" ++ comment.type

/-- Append a comment to the bucket of `key` in an insertion-ordered
association list, creating the bucket at the end if absent (Python dict). -/
def addToGroups (groups : List (String × List Comment)) (key : String) (c : Comment) :
    List (String × List Comment) :=
  match groups with
  | [] => [(key, [c])]
  | (k, cs) :: rest =>
      if k == key then (k, cs ++ [c]) :: rest else (k, cs) :: addToGroups rest key c

/-- The `topic_groups` dict built by `_identify_conversation_threads`. -/
def topicGroups (comments : List Comment) : List (String × List Comment) :=
  comments.foldl (fun g c => addToGroups g (determine_thread_key c) c) []

/-- Chronological sort of comments (`sorted(..., key=lambda x: x.created_at)`,
stable, modelled by insertion sort). -/
def sortByCreated (l : List Comment) : List Comment :=
  List.insertionSort (fun a b => a.created_at ≤ b.created_at) l

/-- Python `min(comments, key=lambda x: x.created_at)` on a nonempty list:
the first comment with minimal timestamp. -/
def minByCreated (c : Comment) (cs : List Comment) : Comment :=
  cs.foldl (fun best x => if x.created_at < best.created_at then x else best) c

/-- `_extract_thread_topic`. -/
def extract_thread_topic (comments : List Comment) : String :=
  match comments with
  | [] => "General Discussion"
  | c :: rest =>
      let first_comment := minByCreated c rest
      match splitDot first_comment.body.data with
      | [] => "Discussion Thread"
      | s :: _ =>
          let topic := stripStr (String.mk s)
          if topic.data.length > 100 then String.mk (topic.data.take 100) ++ "..." else topic

/-- Keyword table for `resolved` in `_determine_resolution_status`. -/
def resolution_keywords : List String := ["resolved", "fixed", "done", "thanks", "lgtm", "merged"]

/-- Keyword table for `ongoing` in `_determine_resolution_status`. -/
def ongoing_keywords : List String := ["will", "todo", "later", "next"]

/-- The reverse-chronological scan of `_determine_resolution_status`. -/
def scanResolution : List Comment → String
  | [] => "unresolved"
  | c :: rest =>
      let lower := toLowerStr c.body
      if resolution_keywords.any fun k => containsKw k lower then "resolved"
      else if ongoing_keywords.any fun k => containsKw k lower then "ongoing"
      else scanResolution rest

/-- Body-level restatement of the resolution scan (proof helper). -/
def scanB : List String → String
  | [] => "unresolved"
  | b :: rest =>
      let lower := toLowerStr b
      if resolution_keywords.any fun k => containsKw k lower then "resolved"
      else if ongoing_keywords.any fun k => containsKw k lower then "ongoing"
      else scanB rest

/-- Python `l[-3:]`. -/
def takeLast {α : Type} (n : Nat) (l : List α) : List α := l.drop (l.length - n)

/-- `_determine_resolution_status`. -/
def determine_resolution_status (comments : List Comment) : String :=
  match comments with
  | [] => "unresolved"
  | _ :: _ =>
      let recent := takeLast 3 (sortByCreated comments)
      scanResolution recent.reverse

/-- `_classify_thread_type`. -/
def classify_thread_type (comments : List Comment) : String :=
  match comments with
  | [] => "general"
  | _ :: _ =>
      let all_text := joinSep " " (comments.map fun c => toLowerStr c.body)
      if (["approve", "lgtm", "looks good"].any fun k => containsKw k all_text) then "approval"
      else if (["suggest", "recommend", "could", "might"].any fun k =>
          containsKw k all_text) then "suggestion"
      else if (["?", "question", "why", "how", "what"].any fun k =>
          containsKw k all_text) then "question"
      else if (["issue", "problem", "error", "bug"].any fun k =>
          containsKw k all_text) then "issue_discussion"
      else "review_feedback"

/-- Construction of one `CommentThread` from a bucket. -/
def mkThread (thread_id : String) (thread_comments : List Comment) : CommentThread :=
  { thread_id := thread_id
    participants := (thread_comments.map (·.author)).dedup
    comments := sortByCreated thread_comments
    topic := extract_thread_topic thread_comments
    resolution_status := determine_resolution_status thread_comments
    thread_type := classify_thread_type thread_comments }

/-- `_identify_conversation_threads`. -/
def identify_conversation_threads (comments : List Comment) : List CommentThread :=
  ((topicGroups comments).filter fun g => g.2.length > 0).map fun g => mkThread g.1 g.2

/-- The author-grouping loop of `_analyze_reviewer_profiles` (PR author excluded). -/
def byAuthor (comments : List Comment) (pr_author : String) :
    List (String × List Comment) :=
  comments.foldl (fun g c => if c.author ≠ pr_author then addToGroups g c.author c else g) []

/-- Per-comment classification loop of `_analyze_reviewer_profiles`. -/
def classifyCommentCounts (author_comments : List Comment) : CommentTypesCount :=
  author_comments.foldl
    (fun t c =>
      let lower := toLowerStr c.body
      if (["?", "question", "why", "how"].any fun k => containsKw k lower) then
        { t with questions := t.questions + 1 }
      else if (["suggest", "recommend", "could"].any fun k => containsKw k lower) then
        { t with suggestions := t.suggestions + 1 }
      else if (["approve", "lgtm", "looks good"].any fun k => containsKw k lower) then
        { t with approvals := t.approvals + 1 }
      else { t with general := t.general + 1 })
    ⟨0, 0, 0, 0⟩

/-- Engagement thresholds of `_analyze_reviewer_profiles`. -/
def engagementLevel (total : Nat) : String :=
  if total ≥ 5 then "high" else if total ≥ 2 then "medium" else "low"

/-- `_analyze_reviewer_profiles`. -/
def analyze_reviewer_profiles (comments : List Comment) (pr_author : String) :
    List (String × ReviewerProfile) :=
  (byAuthor comments pr_author).map fun g =>
    (g.1,
      { name := g.1
        total_comments := g.2.length
        comment_types := classifyCommentCounts g.2
        avg_response_time := 0
        engagement_level := engagementLevel g.2.length })

/-- Positive-tone keyword table of `_assess_communication_tone`. -/
def positive_indicators : List String :=
  ["thanks", "great", "good", "excellent", "perfect", "nice"]

/-- Directive-tone keyword table of `_assess_communication_tone`. -/
def directive_indicators : List String :=
  ["must", "should", "need to", "required", "necessary"]

/-- Collaborative-tone keyword table of `_assess_communication_tone`. -/
def collaborative_indicators : List String :=
  ["suggest", "perhaps", "might", "could", "what do you think"]

/-- Number of comments whose body contains any of the given indicators
(one counting loop of `_assess_communication_tone`). -/
def countMatching (indicators : List String) (comments : List Comment) : Nat :=
  comments.countP fun c => indicators.any fun k => containsKw k (toLowerStr c.body)

/-- `_assess_communication_tone`. -/
def assess_communication_tone (comments : List Comment) : String :=
  match comments with
  | [] => "neutral"
  | _ :: _ =>
      let positive_count := countMatching positive_indicators comments
      let directive_count := countMatching directive_indicators comments
      let collaborative_count := countMatching collaborative_indicators comments
      if collaborative_count > directive_count ∧ positive_count > 0 then "collaborative"
      else if directive_count > collaborative_count then "directive"
      else "mixed"

/-- Increment the per-author counter dict (insertion-ordered). -/
def bumpCount (l : List (String × Nat)) (k : String) : List (String × Nat) :=
  match l with
  | [] => [(k, 1)]
  | (a, n) :: rest => if a == k then (a, n + 1) :: rest else (a, n) :: bumpCount rest k

/-- The `reviewer_activity` dict of `_calculate_conversation_metrics`. -/
def reviewerActivity (comments : List Comment) : List (String × Nat) :=
  comments.foldl (fun m c => bumpCount m c.author) []

/-- `sorted(reviewer_activity.items(), key=.., reverse=True)[:5]` (stable). -/
def mostActiveReviewers (comments : List Comment) : List (String × Nat) :=
  (List.insertionSort (fun a b : String × Nat => b.2 ≤ a.2) (reviewerActivity comments)).take 5

/-- `_calculate_conversation_metrics`. -/
def calculate_conversation_metrics (threads : List CommentThread)
    (comments : List Comment) : ConversationMetrics :=
  let total_threads := threads.length
  let total_responses := (threads.map fun t => t.comments.length).sum
  { total_threads := total_threads
    resolved_threads := threads.countP fun t => t.resolution_status == "resolved"
    unresolved_threads := threads.countP fun t => t.resolution_status == "unresolved"
    avg_responses_per_thread := (total_responses : ℚ) / ((max total_threads 1 : Nat) : ℚ)
    response_time_avg := 0
    most_active_reviewers := mostActiveReviewers comments
    communication_tone := assess_communication_tone comments }

/-- Conflict keyword table of `_analyze_communication_patterns`. -/
def conflict_keywords : List String := ["disagree", "wrong", "incorrect", "no", "but", "however"]

/-- Collaboration keyword table of `_analyze_communication_patterns`. -/
def collaboration_keywords : List String := ["agree", "yes", "good point", "thanks", "exactly"]

/-- `_analyze_communication_patterns`. -/
def analyze_communication_patterns (comments : List Comment) (pr_author : String) :
    CommunicationPatterns :=
  let author_responses := comments.filter fun c => c.author == pr_author
  let reviewer_comments := comments.filter fun c => c.author != pr_author
  { author_responsiveness :=
      if reviewer_comments.length = 0 then 0
      else (author_responses.length : ℚ) / (reviewer_comments.length : ℚ)
    reviewer_follow_up_rate := 0
    discussion_depth := 0
    conflict_indicators :=
      ((comments.filter fun c =>
          conflict_keywords.any fun k => containsKw k (toLowerStr c.body)).map (·.author))
    collaboration_indicators :=
      ((comments.filter fun c =>
          collaboration_keywords.any fun k => containsKw k (toLowerStr c.body)).map (·.author)) }

/-- Round a nonnegative rational to the nearest integer, ties to even
(Python float formatting model). -/
def roundHalfEven (q : ℚ) : Int :=
  let f := ⌊q⌋
  if q - f < 1 / 2 then f
  else if (1 : ℚ) / 2 < q - f then f + 1
  else if f % 2 = 0 then f else f + 1

/-- Python format `:.1f` on a nonnegative rational. -/
def formatFix1 (q : ℚ) : String :=
  let n := roundHalfEven (q * 10)
  toString (n / 10) ++ "." ++ toString (n % 10)

/-- `_generate_conversation_summary`. -/
def generate_conversation_summary (threads : List CommentThread)
    (reviewer_profiles : List (String × ReviewerProfile)) : String :=
  let total_participants := reviewer_profiles.length + 1
  let parts0 := ["This PR involved " ++ toString total_participants ++
      " participants in " ++ toString threads.length ++ " conversation threads."]
  let major_threads := threads.filter fun t => t.comments.length ≥ 3
  let parts1 :=
    if threads.length > 0 ∧ major_threads.length > 0 then
      parts0 ++ ["\nMajor discussion points included:"] ++
        ((major_threads.take 3).map fun t =>
          "â€¢ " ++ t.topic ++ " (" ++ toString t.comments.length ++ " exchanges, " ++
            t.resolution_status ++ ")")
    else parts0
  let active_reviewers :=
    (reviewer_profiles.filter fun p =>
        p.2.engagement_level == "high" || p.2.engagement_level == "medium").map (·.1)
  let parts2 :=
    if reviewer_profiles.length > 0 ∧ active_reviewers.length > 0 then
      parts1 ++ ["\nActive reviewers: " ++ joinSep ", " active_reviewers]
    else parts1
  let resolved_count := threads.countP fun t => t.resolution_status == "resolved"
  let parts3 :=
    if threads.length > 0 then
      parts2 ++ ["\nConversation resolution rate: " ++
        formatFix1 ((resolved_count : ℚ) / (threads.length : ℚ) * 100) ++ "% (" ++
        toString resolved_count ++ "/" ++ toString threads.length ++ " threads resolved)"]
    else parts2
  joinSep "\n" parts3

/-- `analyze_conversations`. -/
def analyze_conversations (pr_data : PRData) : ConversationAnalysis :=
  let threads := identify_conversation_threads pr_data.comments
  let reviewer_profiles := analyze_reviewer_profiles pr_data.comments pr_data.author
  { threads := threads
    reviewer_profiles := reviewer_profiles
    metrics := calculate_conversation_metrics threads pr_data.comments
    patterns := analyze_communication_patterns pr_data.comments pr_data.author
    summary := generate_conversation_summary threads reviewer_profiles }

/-! ### Timeline analyzer (`timeline_analyzer.py`) -/

/-- `TimelineMetrics` dataclass (hour quantities as `ℚ`). -/
structure TimelineMetrics where
  created_at : Int
  first_review_at : Option Int
  last_activity_at : Int
  merged_at : Option Int
  closed_at : Option Int
  time_to_first_review : Option ℚ
  time_to_merge : Option ℚ
  total_lifecycle : ℚ
  review_cycles : Nat
  comment_frequency : ℚ
deriving DecidableEq, Repr

/-- `comment.type in ['review_comment', 'review']`. -/
def isReviewType (c : Comment) : Bool := c.type == "review_comment" || c.type == "review"

/-- `_find_first_review`: minimum timestamp over review-type comments and
formal reviews with a non-null submission time, scanning comments first. -/
def find_first_review (pr : PRData) : Option Int :=
  let afterComments :=
    pr.comments.foldl
      (fun e c =>
        if isReviewType c then
          match e with
          | none => some c.created_at
          | some t => if c.created_at < t then some c.created_at else some t
        else e)
      none
  pr.reviews.foldl
    (fun e r =>
      match r.submitted_at with
      | none => e
      | some s =>
          match e with
          | none => some s
          | some t => if s < t then some s else some t)
    afterComments

/-- `datetime.date()` bucketing: calendar day of an epoch timestamp. -/
def dayOf (t : Int) : Int := Int.fdiv t 86400

/-- A value of the `activities_by_day` dict: review and commit counts. -/
structure DayActivity where
  reviews : Nat
  commits : Nat
deriving DecidableEq, Repr

/-- `activities_by_day[date]['reviews'] += 1` (insertion-ordered dict). -/
def bumpReviews : List (Int × DayActivity) → Int → List (Int × DayActivity)
  | [], d => [(d, ⟨1, 0⟩)]
  | (k, a) :: rest, d =>
      if k == d then (k, ⟨a.reviews + 1, a.commits⟩) :: rest
      else (k, a) :: bumpReviews rest d

/-- `activities_by_day[date]['commits'] += 1` (insertion-ordered dict). -/
def bumpCommits : List (Int × DayActivity) → Int → List (Int × DayActivity)
  | [], d => [(d, ⟨0, 1⟩)]
  | (k, a) :: rest, d =>
      if k == d then (k, ⟨a.reviews, a.commits + 1⟩) :: rest
      else (k, a) :: bumpCommits rest d

/-- The `activities_by_day` dict of `_count_review_cycles`: review-type
comments bucketed first, then commits. -/
def activitiesByDay (pr : PRData) : List (Int × DayActivity) :=
  let m :=
    pr.comments.foldl
      (fun m c => if isReviewType c then bumpReviews m (dayOf c.created_at) else m) []
  pr.commits.foldl (fun m k => bumpCommits m (dayOf k.date)) m

/-- Dict lookup with the zero counter as the (unreachable) default. -/
def lookupDay (m : List (Int × DayActivity)) (d : Int) : DayActivity :=
  match m with
  | [] => ⟨0, 0⟩
  | (k, a) :: rest => if k == d then a else lookupDay rest d

/-- `sorted(...)` on integer dates. -/
def sortInts (l : List Int) : List Int := List.insertionSort (fun a b => a ≤ b) l

/-- The adjacent-pair cycle-counting loop of `_count_review_cycles`. -/
def countAdjCycles (m : List (Int × DayActivity)) : List Int → Nat
  | d :: d' :: rest =>
      (if 0 < (lookupDay m d).reviews ∧ 0 < (lookupDay m d').commits then 1 else 0) +
        countAdjCycles m (d' :: rest)
  | _ => 0

/-- `_count_review_cycles`. -/
def count_review_cycles (pr : PRData) : Nat :=
  let m := activitiesByDay pr
  let sorted_dates := sortInts (m.map (·.1))
  max 1 (countAdjCycles m sorted_dates)

/-- `_calculate_comment_frequency` (`timedelta.days` is floor division). -/
def calculate_comment_frequency (pr : PRData) (start_t end_t : Int) : ℚ :=
  let total_days : Int := max 1 (Int.fdiv (end_t - start_t) 86400)
  (pr.comments.length : ℚ) / (total_days : ℚ)

/-- `analyze_timeline`. -/
def analyze_timeline (pr : PRData) : TimelineMetrics :=
  let created_at := pr.created_at
  let first_review_at := find_first_review pr
  let merged_at := pr.merged_at
  let closed_at := pr.closed_at
  let last_activity_at := pr.updated_at
  { created_at := created_at
    first_review_at := first_review_at
    last_activity_at := last_activity_at
    merged_at := merged_at
    closed_at := closed_at
    time_to_first_review := first_review_at.map fun t => ((t - created_at : Int) : ℚ) / 3600
    time_to_merge := merged_at.map fun t => ((t - created_at : Int) : ℚ) / 3600
    total_lifecycle := ((last_activity_at - created_at : Int) : ℚ) / 3600
    review_cycles := count_review_cycles pr
    comment_frequency := calculate_comment_frequency pr created_at last_activity_at }

/-- One element of the `activities` list of `analyze_activity_periods`. -/
structure Activity where
  timestamp : Int
  type : String
  author : String
  activity : String
deriving DecidableEq, Repr

/-- `ActivityPeriod` dataclass (`end` renamed `period_end`: Lean keyword). -/
structure ActivityPeriod where
  start : Int
  period_end : Int
  activity_type : String
  participants : List String
deriving DecidableEq, Repr

/-- The tagged merge of comments and commits in `analyze_activity_periods`. -/
def activitiesOf (pr : PRData) : List Activity :=
  (pr.comments.map fun c => ⟨c.created_at, "comment", c.author, c.type⟩) ++
    (pr.commits.map fun k => ⟨k.date, "commit", k.author, "commit"⟩)

/-- `activities.sort(key=lambda x: x['timestamp'])` (stable). -/
def sortActivities (l : List Activity) : List Activity :=
  List.insertionSort (fun a b => a.timestamp ≤ b.timestamp) l

/-- `_determine_period_type`. -/
def determine_period_type (activities : List Activity) : String :=
  let commit_count := activities.countP fun a => a.type == "commit"
  let comment_count := activities.countP fun a => a.type == "comment"
  if commit_count > comment_count then "revision"
  else if comment_count > 0 then "review"
  else "discussion"

/-- A placeholder activity, used only as the default of `getLastD` on lists
that are provably nonempty. -/
def defaultActivity : Activity := ⟨0, "", "", ""⟩

/-- Construction of one `ActivityPeriod` from the accumulated activities. -/
def mkPeriod (start : Int) (acts : List Activity) : ActivityPeriod :=
  { start := start
    period_end := (acts.getLastD defaultActivity).timestamp
    activity_type := determine_period_type acts
    participants := (acts.map (·.author)).dedup }

/-- The grouping loop of `analyze_activity_periods`: a gap of more than 24
hours between an activity and the last activity of the current accumulating
period closes the period. -/
def periodsLoop (start : Int) (cur : List Activity) :
    List Activity → List ActivityPeriod
  | [] => if cur.length > 0 then [mkPeriod start cur] else []
  | a :: rest =>
      let prev_t := (cur.getLastD defaultActivity).timestamp
      if ((a.timestamp - prev_t : Int) : ℚ) / 3600 > 24 then
        mkPeriod start cur :: periodsLoop a.timestamp [a] rest
      else periodsLoop start (cur ++ [a]) rest

/-- `analyze_activity_periods`. -/
def analyze_activity_periods (pr : PRData) : List ActivityPeriod :=
  match sortActivities (activitiesOf pr) with
  | [] => []
  | a :: rest => periodsLoop a.timestamp [a] rest

/-! ### Spec-worded review-cycle computation (for the refinement claim C3) -/

/-- Spec wording: the calendar dates of all review-type events. -/
def specReviewDates (pr : PRData) : List Int :=
  (pr.comments.filter isReviewType).map fun c => dayOf c.created_at

/-- Spec wording: the calendar dates of all commits. -/
def specCommitDates (pr : PRData) : List Int :=
  pr.commits.map fun k => dayOf k.date

/-- Spec wording: the set of dates that have any recorded activity. -/
def specActivityDates (pr : PRData) : List Int :=
  (specReviewDates pr ++ specCommitDates pr).dedup

/-- Spec wording: for each adjacent pair (d, d') of the sorted date list,
count one cycle when d has at least one review event and d' at least one
commit. -/
def specCountAdj (pr : PRData) : List Int → Nat
  | d :: d' :: rest =>
      (if d ∈ specReviewDates pr ∧ d' ∈ specCommitDates pr then 1 else 0) +
        specCountAdj pr (d' :: rest)
  | _ => 0

/-- Spec wording of the whole review-cycles computation, floored at 1. -/
def spec_review_cycles (pr : PRData) : Nat :=
  max 1 (specCountAdj pr (sortInts (specActivityDates pr)))

/-! ## Theorems -/

/-- The resolution scan only reads comment bodies. -/
lemma scanResolution_eq_scanB (l : List Comment) :
    scanResolution l = scanB (l.map fun c => c.body) := by
  induction l with
  | nil => rfl
  | cons c rest ih =>
      show (if resolution_keywords.any fun k => containsKw k (toLowerStr c.body) then "resolved"
        else if ongoing_keywords.any fun k => containsKw k (toLowerStr c.body) then "ongoing"
        else scanResolution rest) =
        (if resolution_keywords.any fun k => containsKw k (toLowerStr c.body) then "resolved"
        else if ongoing_keywords.any fun k => containsKw k (toLowerStr c.body) then "ongoing"
        else scanB (rest.map fun x => x.body))
      rw [ih]

/-- Claim C1: a thread whose chronologically last three comments have bodies
["will fix later", "ok", "👍"] gets resolution status "ongoing": the scan
walks the last three comments newest-first, the two newest match no keyword,
and the oldest matches the ongoing keywords before any resolution keyword. -/
theorem C1_last_three_ongoing (comments : List Comment)
    (h : (takeLast 3 (sortByCreated comments)).map (fun c => c.body) =
      ["will fix later", "ok", "👍"]) :
    determine_resolution_status comments = "ongoing" := by
  cases comments with
  | nil => exact absurd h (by decide)
  | cons c cs =>
      show scanResolution (takeLast 3 (sortByCreated (c :: cs))).reverse = "ongoing"
      rw [scanResolution_eq_scanB, List.map_reverse, h]
      decide

/-- Witness for C1 at a concrete three-comment thread. -/
theorem C1_last_three_ongoing_witness :
    (takeLast 3 (sortByCreated
        [⟨"a", "will fix later", 0, "issue_comment"⟩,
         ⟨"b", "ok", 1, "issue_comment"⟩,
         ⟨"c", "👍", 2, "issue_comment"⟩])).map (fun c => c.body) =
      ["will fix later", "ok", "👍"] ∧
    determine_resolution_status
      [⟨"a", "will fix later", 0, "issue_comment"⟩,
       ⟨"b", "ok", 1, "issue_comment"⟩,
       ⟨"c", "👍", 2, "issue_comment"⟩] = "ongoing" :=
  ⟨by decide, C1_last_three_ongoing _ (by decide)⟩

/-- Claim C5: the backtick-delimited filename rule of the thread-key
assignment outranks the suggestion-keyword rule; the suggestion keyword
"could" is present, yet the bucket is "file_utils.py". -/
theorem C5_filename_rule_priority :
    containsKw "could"
      (toLowerStr "Could we refactor `utils.py` to handle this?") = true ∧
    determine_thread_key
      ⟨"alice", "Could we refactor `utils.py` to handle this?", 0, "issue_comment"⟩ =
      "file_utils.py" := by
  decide

/-- Claim C6 (tie policy): whenever the collaborative and directive counts of
the tone assessment are equal on a nonempty comment list, the result is
"mixed", whatever the positive count is. -/
theorem C6_tie_gives_mixed (comments : List Comment) (h0 : comments ≠ [])
    (h : countMatching collaborative_indicators comments =
      countMatching directive_indicators comments) :
    assess_communication_tone comments = "mixed" := by
  cases comments with
  | nil => exact absurd rfl h0
  | cons c cs =>
      show (if countMatching collaborative_indicators (c :: cs) >
            countMatching directive_indicators (c :: cs) ∧
            countMatching positive_indicators (c :: cs) > 0 then "collaborative"
        else if countMatching directive_indicators (c :: cs) >
            countMatching collaborative_indicators (c :: cs) then "directive"
        else "mixed") = "mixed"
      rw [h, if_neg (fun hc => lt_irrefl _ hc.1), if_neg (lt_irrefl _)]

/-- Witness for C6 at the claimed counts (collaborative 2, directive 2,
positive 1). -/
theorem C6_tie_gives_mixed_witness :
    ([⟨"a", "nice, could", 0, "t"⟩, ⟨"b", "perhaps", 1, "t"⟩,
      ⟨"c", "must", 2, "t"⟩, ⟨"d", "should", 3, "t"⟩] : List Comment) ≠ [] ∧
    countMatching collaborative_indicators
      [⟨"a", "nice, could", 0, "t"⟩, ⟨"b", "perhaps", 1, "t"⟩,
       ⟨"c", "must", 2, "t"⟩, ⟨"d", "should", 3, "t"⟩] = 2 ∧
    countMatching directive_indicators
      [⟨"a", "nice, could", 0, "t"⟩, ⟨"b", "perhaps", 1, "t"⟩,
       ⟨"c", "must", 2, "t"⟩, ⟨"d", "should", 3, "t"⟩] = 2 ∧
    countMatching positive_indicators
      [⟨"a", "nice, could", 0, "t"⟩, ⟨"b", "perhaps", 1, "t"⟩,
       ⟨"c", "must", 2, "t"⟩, ⟨"d", "should", 3, "t"⟩] = 1 ∧
    assess_communication_tone
      [⟨"a", "nice, could", 0, "t"⟩, ⟨"b", "perhaps", 1, "t"⟩,
       ⟨"c", "must", 2, "t"⟩, ⟨"d", "should", 3, "t"⟩] = "mixed" :=
  ⟨by decide, by decide, by decide, by decide,
    C6_tie_gives_mixed _ (by decide) (by decide)⟩

/-- Claim C4 counterexample: on a snapshot with zero comments the metrics
carry communication tone "neutral", which is outside
{collaborative, directive, mixed}. -/
theorem C4_tone_counterexample :
    (analyze_conversations ⟨"me", 0, 0, none, none, [], [], []⟩).metrics.communication_tone =
      "neutral" ∧
    "neutral" ∉ (["collaborative", "directive", "mixed"] : List String) := by
  exact ⟨rfl, by decide⟩

/-- Claim C4 amended: for every snapshot with at least one comment, the
communication tone of the conversation metrics is one of
{collaborative, directive, mixed}; with zero comments it is "neutral". -/
theorem C4_tone_in_set (pr : PRData) (h : pr.comments ≠ []) :
    (analyze_conversations pr).metrics.communication_tone ∈
      (["collaborative", "directive", "mixed"] : List String) := by
  have hm : (analyze_conversations pr).metrics.communication_tone =
      assess_communication_tone pr.comments := rfl
  rw [hm]
  cases hc : pr.comments with
  | nil => exact absurd hc h
  | cons c cs =>
      show (if countMatching collaborative_indicators (c :: cs) >
            countMatching directive_indicators (c :: cs) ∧
            countMatching positive_indicators (c :: cs) > 0 then "collaborative"
        else if countMatching directive_indicators (c :: cs) >
            countMatching collaborative_indicators (c :: cs) then "directive"
        else "mixed") ∈ (["collaborative", "directive", "mixed"] : List String)
      split
      · simp
      split
      · simp
      · simp

/-- Witness for the amended C4 at a one-comment snapshot. -/
theorem C4_tone_in_set_witness :
    (⟨"me", 0, 0, none, none, [⟨"a", "hello", 0, "issue_comment"⟩], [], []⟩ :
        PRData).comments ≠ [] ∧
    (analyze_conversations
        ⟨"me", 0, 0, none, none, [⟨"a", "hello", 0, "issue_comment"⟩], [], []⟩).metrics.communication_tone ∈
      (["collaborative", "directive", "mixed"] : List String) :=
  ⟨by decide, C4_tone_in_set _ (by decide)⟩

/-- Claim C7: time_to_merge is null exactly when merged_at is null, and for a
merged PR it equals the merge-to-creation difference in hours. -/
theorem C7_time_to_merge_null_iff (pr : PRData) :
    ((analyze_timeline pr).time_to_merge = none ↔ pr.merged_at = none) ∧
    ∀ t : Int, pr.merged_at = some t →
      (analyze_timeline pr).time_to_merge =
        some (((t - pr.created_at : Int) : ℚ) / 3600) := by
  have hm : (analyze_timeline pr).time_to_merge =
      pr.merged_at.map fun t => ((t - pr.created_at : Int) : ℚ) / 3600 := rfl
  constructor
  · rw [hm]; cases pr.merged_at <;> simp
  · intro t ht; rw [hm, ht]; rfl

/-- Witness for C7 at a merged snapshot (created 0, merged 7200). -/
theorem C7_time_to_merge_null_iff_witness :
    (⟨"me", 0, 100, some 7200, none, [], [], []⟩ : PRData).merged_at = some 7200 ∧
    (analyze_timeline ⟨"me", 0, 100, some 7200, none, [], [], []⟩).time_to_merge =
      some (((7200 - (0 : Int) : Int) : ℚ) / 3600) :=
  ⟨rfl, (C7_time_to_merge_null_iff _).2 7200 rfl⟩

/-- Claim C8: the review-cycle count of the timeline metrics is always at
least 1 (the computation is floored at 1). -/
theorem C8_review_cycles_ge_one (pr : PRData) :
    1 ≤ (analyze_timeline pr).review_cycles :=
  le_max_left _ _

/-- Claim C9: with an empty comment list, analyze_conversations produces no
threads, no reviewer profiles, an average of 0 responses per thread (the
division is guarded by a floor of 1 in the denominator), and the one-line
summary string. -/
theorem C9_empty_comments (pr : PRData) (h : pr.comments = []) :
    (analyze_conversations pr).threads = [] ∧
    (analyze_conversations pr).reviewer_profiles = [] ∧
    (analyze_conversations pr).metrics.avg_responses_per_thread = 0 ∧
    (analyze_conversations pr).summary =
      "This PR involved 1 participants in 0 conversation threads." := by
  refine ⟨?_, ?_, ?_, ?_⟩
  · have ht : (analyze_conversations pr).threads =
        identify_conversation_threads pr.comments := rfl
    rw [ht, h]; rfl
  · have hp : (analyze_conversations pr).reviewer_profiles =
        analyze_reviewer_profiles pr.comments pr.author := rfl
    rw [hp, h]; rfl
  · have ha : (analyze_conversations pr).metrics.avg_responses_per_thread =
        ((((identify_conversation_threads pr.comments).map
            fun t => t.comments.length).sum : ℚ) /
          ((max (identify_conversation_threads pr.comments).length 1 : Nat) : ℚ)) := rfl
    rw [ha, h]
    have h0 : identify_conversation_threads [] = [] := rfl
    rw [h0]
    simp
  · have hs : (analyze_conversations pr).summary =
        generate_conversation_summary (identify_conversation_threads pr.comments)
          (analyze_reviewer_profiles pr.comments pr.author) := rfl
    rw [hs, h]
    have hpr : analyze_reviewer_profiles [] pr.author = [] := rfl
    rw [hpr]
    rfl

/-- Witness for C9 at a concrete comment-free snapshot. -/
theorem C9_empty_comments_witness :
    (⟨"me", 0, 0, none, none, [], [], []⟩ : PRData).comments = [] ∧
    ((analyze_conversations ⟨"me", 0, 0, none, none, [], [], []⟩).threads = [] ∧
     (analyze_conversations ⟨"me", 0, 0, none, none, [], [], []⟩).reviewer_profiles = [] ∧
     (analyze_conversations ⟨"me", 0, 0, none, none, [], [], []⟩).metrics.avg_responses_per_thread = 0 ∧
     (analyze_conversations ⟨"me", 0, 0, none, none, [], [], []⟩).summary =
       "This PR involved 1 participants in 0 conversation threads.") :=
  ⟨rfl, C9_empty_comments _ rfl⟩

/-- Appending a comment to its bucket adds exactly that comment to the
concatenation of all buckets, up to permutation. -/
lemma join_addToGroups (k : String) (c : Comment) :
    ∀ g : List (String × List Comment),
      (((addToGroups g k c).map (·.2)).flatten).Perm ((g.map (·.2)).flatten ++ [c])
  | [] => by simp [addToGroups]
  | (k', cs) :: rest => by
      by_cases hk : k' == k
      · simp only [addToGroups, hk, if_pos, List.map_cons, List.flatten_cons]
        rw [List.append_assoc, List.append_assoc]
        exact List.Perm.append_left cs List.perm_append_comm
      · simp only [addToGroups, hk, Bool.false_eq_true, if_neg, not_false_iff,
          List.map_cons, List.flatten_cons]
        rw [List.append_assoc]
        exact List.Perm.append_left cs (join_addToGroups k c rest)

/-- Folding the comment list into the bucket dictionary appends, up to
permutation, exactly the folded comments. -/
lemma join_foldl_groups :
    ∀ (l : List Comment) (g : List (String × List Comment)),
      (((l.foldl (fun g c => addToGroups g (determine_thread_key c) c) g).map
          (·.2)).flatten).Perm ((g.map (·.2)).flatten ++ l)
  | [], g => by simp
  | c :: l, g => by
      have ih := join_foldl_groups l (addToGroups g (determine_thread_key c) c)
      refine ih.trans ?_
      have h2 := List.Perm.append_right l (join_addToGroups (determine_thread_key c) c g)
      refine h2.trans ?_
      rw [List.append_assoc]
      exact List.Perm.refl _

/-- The buckets of `topicGroups` partition the comment list (comment
multiplicities preserved). -/
lemma topicGroups_join_perm (comments : List Comment) :
    (((topicGroups comments).map (·.2)).flatten).Perm comments := by
  simpa using join_foldl_groups comments []

/-- `addToGroups` never creates an empty bucket. -/
lemma addToGroups_ne_nil (k : String) (c : Comment) :
    ∀ g : List (String × List Comment),
      (∀ p ∈ g, p.2 ≠ []) → ∀ p ∈ addToGroups g k c, p.2 ≠ []
  | [], _, p, hp => by
      simp only [addToGroups, List.mem_singleton] at hp
      subst hp; simp
  | (k', cs) :: rest, hg, p, hp => by
      by_cases hk : k' == k
      · simp only [addToGroups, hk, if_pos, List.mem_cons] at hp
        rcases hp with rfl | hp
        · simp
        · exact hg p (List.mem_cons_of_mem _ hp)
      · simp only [addToGroups, hk, Bool.false_eq_true, if_neg, not_false_iff,
          List.mem_cons] at hp
        rcases hp with rfl | hp
        · exact hg _ (List.mem_cons_self _ _)
        · exact addToGroups_ne_nil k c rest
            (fun q hq => hg q (List.mem_cons_of_mem _ hq)) p hp

/-- No bucket of `topicGroups` is empty. -/
lemma topicGroups_ne_nil (comments : List Comment) :
    ∀ p ∈ topicGroups comments, p.2 ≠ [] := by
  have main : ∀ (l : List Comment) (g : List (String × List Comment)),
      (∀ p ∈ g, p.2 ≠ []) →
      ∀ p ∈ l.foldl (fun g c => addToGroups g (determine_thread_key c) c) g, p.2 ≠ [] := by
    intro l
    induction l with
    | nil => intro g hg; exact hg
    | cons c l ih =>
        intro g hg
        exact ih _ (addToGroups_ne_nil _ c g hg)
  exact main comments [] (by simp)

/-- Sorting each bucket does not change the concatenated multiset. -/
lemma join_map_sort (l : List (String × List Comment)) :
    (((l.map fun g => sortByCreated g.2).flatten)).Perm ((l.map (·.2)).flatten) := by
  induction l with
  | nil => simp
  | cons g rest ih =>
      simp only [List.map_cons, List.flatten_cons]
      exact List.Perm.append (List.perm_insertionSort _ _) ih

/-- Claim C2: thread construction partitions the input comments — the
concatenation of all thread comment sequences is a permutation of the input
(each comment occurs in exactly one thread, with multiplicity preserved) and
every produced thread has at least one comment. -/
theorem C2_threads_partition (comments : List Comment) :
    ((((identify_conversation_threads comments).map fun t => t.comments).flatten).Perm comments) ∧
    ∀ t ∈ identify_conversation_threads comments, t.comments ≠ [] := by
  have hfilter : (topicGroups comments).filter (fun g => g.2.length > 0) =
      topicGroups comments := by
    apply List.filter_eq_self.mpr
    intro p hp
    have := topicGroups_ne_nil comments p hp
    simpa [List.length_pos] using this
  constructor
  · show ((((topicGroups comments).filter (fun g => g.2.length > 0)).map
        (fun g => mkThread g.1 g.2)).map (fun t => t.comments)).flatten.Perm comments
    rw [hfilter, List.map_map]
    have hcomp : ((fun t : CommentThread => t.comments) ∘ fun g : String × List Comment =>
        mkThread g.1 g.2) = fun g : String × List Comment => sortByCreated g.2 := rfl
    rw [hcomp]
    exact (join_map_sort _).trans (topicGroups_join_perm comments)
  · intro t ht
    have ht' : t ∈ ((topicGroups comments).filter (fun g => g.2.length > 0)).map
        (fun g => mkThread g.1 g.2) := ht
    rw [hfilter] at ht'
    rcases List.mem_map.mp ht' with ⟨g, hg, rfl⟩
    have hgne : g.2 ≠ [] := topicGroups_ne_nil comments g hg
    show sortByCreated g.2 ≠ []
    apply List.ne_nil_of_length_pos
    have : (sortByCreated g.2).length = g.2.length :=
      (List.perm_insertionSort _ _).length_eq
    rw [this]
    exact List.length_pos.mpr hgne

/-- Witness for C2 at a concrete one-comment snapshot. -/
theorem C2_threads_partition_witness :
    ((((identify_conversation_threads [⟨"a", "hello", 0, "issue_comment"⟩]).map
        fun t => t.comments).flatten).Perm [⟨"a", "hello", 0, "issue_comment"⟩]) ∧
    (mkThread "general_issue_comment" [⟨"a", "hello", 0, "issue_comment"⟩]).comments ≠ [] :=
  ⟨(C2_threads_partition [⟨"a", "hello", 0, "issue_comment"⟩]).1,
    (C2_threads_partition [⟨"a", "hello", 0, "issue_comment"⟩]).2
      (mkThread "general_issue_comment" [⟨"a", "hello", 0, "issue_comment"⟩]) (by decide)⟩

/-- A nonempty activity list in which every activity is a comment or a commit
is classified "revision" or "review", never "discussion". -/
lemma determine_period_type_mem (acts : List Activity) (hne : acts ≠ [])
    (hok : ∀ a ∈ acts, a.type = "comment" ∨ a.type = "commit") :
    determine_period_type acts = "revision" ∨ determine_period_type acts = "review" := by
  show (if (acts.countP fun a => a.type == "commit") >
        (acts.countP fun a => a.type == "comment") then "revision"
      else if (acts.countP fun a => a.type == "comment") > 0 then "review"
      else "discussion") = "revision" ∨
    (if (acts.countP fun a => a.type == "commit") >
        (acts.countP fun a => a.type == "comment") then "revision"
      else if (acts.countP fun a => a.type == "comment") > 0 then "review"
      else "discussion") = "review"
  split
  · left; rfl
  next h1 =>
    split
    · right; rfl
    next h2 =>
      exfalso
      have hcomment : (acts.countP fun a => a.type == "comment") = 0 := by omega
      have hcommit : (acts.countP fun a => a.type == "commit") = 0 := by omega
      cases acts with
      | nil => exact hne rfl
      | cons a rest =>
          rcases hok a (List.mem_cons_self a rest) with h | h
          · have : 0 < ((a :: rest).countP fun a => a.type == "comment") :=
              List.countP_pos_iff.mpr ⟨a, List.mem_cons_self a rest, by simp [h]⟩
            omega
          · have : 0 < ((a :: rest).countP fun a => a.type == "commit") :=
              List.countP_pos_iff.mpr ⟨a, List.mem_cons_self a rest, by simp [h]⟩
            omega

/-- Every period produced by the grouping loop, run on a nonempty current
buffer of comment/commit activities, is "revision" or "review". -/
lemma periodsLoop_types (rest : List Activity) :
    ∀ (start : Int) (cur : List Activity), cur ≠ [] →
      (∀ a ∈ cur, a.type = "comment" ∨ a.type = "commit") →
      (∀ a ∈ rest, a.type = "comment" ∨ a.type = "commit") →
      ∀ p ∈ periodsLoop start cur rest,
        p.activity_type = "revision" ∨ p.activity_type = "review" := by
  induction rest with
  | nil =>
      intro start cur hne hcur _ p hp
      have hlen : cur.length > 0 := List.length_pos.mpr hne
      simp only [periodsLoop, if_pos hlen, List.mem_singleton] at hp
      subst hp
      exact determine_period_type_mem cur hne hcur
  | cons a rest ih =>
      intro start cur hne hcur hrest p hp
      have hok_a : a.type = "comment" ∨ a.type = "commit" :=
        hrest a (List.mem_cons_self a rest)
      have hrest' : ∀ x ∈ rest, x.type = "comment" ∨ x.type = "commit" :=
        fun x hx => hrest x (List.mem_cons_of_mem a hx)
      rw [periodsLoop] at hp
      split at hp
      · rcases List.mem_cons.mp hp with rfl | hp'
        · exact determine_period_type_mem cur hne hcur
        · exact ih a.timestamp [a] (by simp)
            (by intro x hx; rw [List.mem_singleton] at hx; subst hx; exact hok_a)
            hrest' p hp'
      · exact ih start (cur ++ [a]) (by simp)
          (by
            intro x hx
            rcases List.mem_append.mp hx with h | h
            · exact hcur x h
            · rw [List.mem_singleton] at h; subst h; exact hok_a)
          hrest' p hp

/-- Claim C10: every activity period produced by analyze_activity_periods is
classified "revision" or "review"; the "discussion" branch of the period
classifier is unreachable because each period holds at least one activity and
every activity is a comment or a commit. -/
theorem C10_no_discussion_period (pr : PRData) :
    ∀ p ∈ analyze_activity_periods pr,
      p.activity_type = "revision" ∨ p.activity_type = "review" := by
  intro p hp
  have hok : ∀ x ∈ sortActivities (activitiesOf pr),
      x.type = "comment" ∨ x.type = "commit" := by
    intro x hx
    have hx' : x ∈ activitiesOf pr := ((List.perm_insertionSort _ _).mem_iff).mp hx
    rcases List.mem_append.mp hx' with h | h <;> rcases List.mem_map.mp h with ⟨y, -, rfl⟩
    · left; rfl
    · right; rfl
  rw [analyze_activity_periods] at hp
  cases hs : sortActivities (activitiesOf pr) with
  | nil => rw [hs] at hp; simp at hp
  | cons a rest =>
      rw [hs] at hp
      refine periodsLoop_types rest a.timestamp [a] (by simp) ?_ ?_ p hp
      · intro x hx
        rw [List.mem_singleton] at hx; rw [hx]
        exact hok a (hs ▸ List.mem_cons_self a rest)
      · intro x hx
        exact hok x (hs ▸ List.mem_cons_of_mem a hx)

/-- Witness for C10 at a one-comment snapshot producing one "review" period. -/
theorem C10_no_discussion_period_witness :
    (⟨0, 0, "review", ["a"]⟩ : ActivityPeriod) ∈
      analyze_activity_periods
        ⟨"me", 0, 0, none, none, [⟨"a", "hello", 0, "issue_comment"⟩], [], []⟩ ∧
    ((⟨0, 0, "review", ["a"]⟩ : ActivityPeriod).activity_type = "revision" ∨
      (⟨0, 0, "review", ["a"]⟩ : ActivityPeriod).activity_type = "review") :=
  ⟨by decide,
    C10_no_discussion_period
      ⟨"me", 0, 0, none, none, [⟨"a", "hello", 0, "issue_comment"⟩], [], []⟩
      ⟨0, 0, "review", ["a"]⟩ (by decide)⟩

/-- Lookup on the empty day dictionary yields the zero counters. -/
lemma lookupDay_nil (d : Int) : lookupDay [] d = ⟨0, 0⟩ := rfl

/-- Lookup on a nonempty day dictionary, with a propositional test. -/
lemma lookupDay_cons (k : Int) (a : DayActivity) (rest : List (Int × DayActivity))
    (d : Int) : lookupDay ((k, a) :: rest) d = if k = d then a else lookupDay rest d := by
  by_cases h : k = d <;> simp [lookupDay, beq_iff_eq, h]

/-- Unfolding `bumpReviews` on the empty dictionary. -/
lemma bumpReviews_nil (d : Int) : bumpReviews [] d = [(d, ⟨1, 0⟩)] := rfl

/-- Unfolding `bumpReviews` on a nonempty dictionary, propositional test. -/
lemma bumpReviews_cons (k : Int) (a : DayActivity) (rest : List (Int × DayActivity))
    (d : Int) : bumpReviews ((k, a) :: rest) d =
      if k = d then (k, ⟨a.reviews + 1, a.commits⟩) :: rest
      else (k, a) :: bumpReviews rest d := by
  by_cases h : k = d <;> simp [bumpReviews, beq_iff_eq, h]

/-- Unfolding `bumpCommits` on the empty dictionary. -/
lemma bumpCommits_nil (d : Int) : bumpCommits [] d = [(d, ⟨0, 1⟩)] := rfl

/-- Unfolding `bumpCommits` on a nonempty dictionary, propositional test. -/
lemma bumpCommits_cons (k : Int) (a : DayActivity) (rest : List (Int × DayActivity))
    (d : Int) : bumpCommits ((k, a) :: rest) d =
      if k = d then (k, ⟨a.reviews, a.commits + 1⟩) :: rest
      else (k, a) :: bumpCommits rest d := by
  by_cases h : k = d <;> simp [bumpCommits, beq_iff_eq, h]

/-- Bumping the review counter of day `d` adds one to the lookup at `d` and
leaves every other day unchanged. -/
lemma lookupDay_bumpReviews_reviews (d d' : Int) :
    ∀ m, (lookupDay (bumpReviews m d) d').reviews =
      (lookupDay m d').reviews + (if d' = d then 1 else 0)
  | [] => by
      rw [bumpReviews_nil, lookupDay_cons, lookupDay_nil]
      by_cases h : d = d'
      · rw [if_pos h, if_pos h.symm]
      · rw [if_neg h, if_neg (fun hh : d' = d => h hh.symm)]
  | (k, a) :: rest => by
      rw [bumpReviews_cons]
      by_cases hk : k = d
      · rw [if_pos hk, lookupDay_cons, lookupDay_cons]
        by_cases h' : k = d'
        · rw [if_pos h', if_pos h', if_pos (h'.symm.trans hk)]
        · rw [if_neg h', if_neg h', if_neg (fun hh : d' = d => h' (hk.trans hh.symm))]
          rfl
      · rw [if_neg hk, lookupDay_cons, lookupDay_cons]
        by_cases h' : k = d'
        · rw [if_pos h', if_pos h', if_neg (fun hh : d' = d => hk (h'.trans hh))]
          rfl
        · rw [if_neg h', if_neg h']
          exact lookupDay_bumpReviews_reviews d d' rest

/-- Bumping a review counter never changes a commit counter. -/
lemma lookupDay_bumpReviews_commits (d d' : Int) :
    ∀ m, (lookupDay (bumpReviews m d) d').commits = (lookupDay m d').commits
  | [] => by
      rw [bumpReviews_nil, lookupDay_cons, lookupDay_nil]
      by_cases h : d = d' <;> simp [h]
  | (k, a) :: rest => by
      rw [bumpReviews_cons]
      by_cases hk : k = d
      · rw [if_pos hk, lookupDay_cons, lookupDay_cons]
        by_cases h' : k = d'
        · rw [if_pos h', if_pos h']
        · rw [if_neg h', if_neg h']
      · rw [if_neg hk, lookupDay_cons, lookupDay_cons]
        by_cases h' : k = d'
        · rw [if_pos h', if_pos h']
        · rw [if_neg h', if_neg h']
          exact lookupDay_bumpReviews_commits d d' rest

/-- Bumping the commit counter of day `d` adds one to the lookup at `d` and
leaves every other day unchanged. -/
lemma lookupDay_bumpCommits_commits (d d' : Int) :
    ∀ m, (lookupDay (bumpCommits m d) d').commits =
      (lookupDay m d').commits + (if d' = d then 1 else 0)
  | [] => by
      rw [bumpCommits_nil, lookupDay_cons, lookupDay_nil]
      by_cases h : d = d'
      · rw [if_pos h, if_pos h.symm]
      · rw [if_neg h, if_neg (fun hh : d' = d => h hh.symm)]
  | (k, a) :: rest => by
      rw [bumpCommits_cons]
      by_cases hk : k = d
      · rw [if_pos hk, lookupDay_cons, lookupDay_cons]
        by_cases h' : k = d'
        · rw [if_pos h', if_pos h', if_pos (h'.symm.trans hk)]
        · rw [if_neg h', if_neg h', if_neg (fun hh : d' = d => h' (hk.trans hh.symm))]
          rfl
      · rw [if_neg hk, lookupDay_cons, lookupDay_cons]
        by_cases h' : k = d'
        · rw [if_pos h', if_pos h', if_neg (fun hh : d' = d => hk (h'.trans hh))]
          rfl
        · rw [if_neg h', if_neg h']
          exact lookupDay_bumpCommits_commits d d' rest

/-- Bumping a commit counter never changes a review counter. -/
lemma lookupDay_bumpCommits_reviews (d d' : Int) :
    ∀ m, (lookupDay (bumpCommits m d) d').reviews = (lookupDay m d').reviews
  | [] => by
      rw [bumpCommits_nil, lookupDay_cons, lookupDay_nil]
      by_cases h : d = d' <;> simp [h]
  | (k, a) :: rest => by
      rw [bumpCommits_cons]
      by_cases hk : k = d
      · rw [if_pos hk, lookupDay_cons, lookupDay_cons]
        by_cases h' : k = d'
        · rw [if_pos h', if_pos h']
        · rw [if_neg h', if_neg h']
      · rw [if_neg hk, lookupDay_cons, lookupDay_cons]
        by_cases h' : k = d'
        · rw [if_pos h', if_pos h']
        · rw [if_neg h', if_neg h']
          exact lookupDay_bumpCommits_reviews d d' rest

/-- The review fold over the comment list accumulates, per day, the count of
review-type comments on that day. -/
lemma comments_fold_reviews (d : Int) :
    ∀ (cs : List Comment) (m),
      (lookupDay (cs.foldl
          (fun m c => if isReviewType c then bumpReviews m (dayOf c.created_at) else m) m)
        d).reviews =
      (lookupDay m d).reviews +
        cs.countP (fun c => isReviewType c && (dayOf c.created_at == d))
  | [], m => by simp
  | c :: cs, m => by
      rw [List.foldl_cons, List.countP_cons, comments_fold_reviews d cs]
      by_cases hr : isReviewType c
      · rw [if_pos hr, lookupDay_bumpReviews_reviews]
        by_cases hd : dayOf c.created_at = d
        · rw [if_pos hd.symm,
            if_pos (show (isReviewType c && (dayOf c.created_at == d)) = true by
              rw [hr, Bool.true_and]; exact beq_iff_eq.mpr hd)]
          omega
        · rw [if_neg (fun hh : d = dayOf c.created_at => hd hh.symm),
            if_neg (fun hh : (isReviewType c && (dayOf c.created_at == d)) = true =>
              hd (beq_iff_eq.mp ((Bool.and_eq_true _ _).mp hh).2))]
          omega
      · rw [if_neg hr,
          if_neg (fun hh : (isReviewType c && (dayOf c.created_at == d)) = true =>
            hr ((Bool.and_eq_true _ _).mp hh).1)]
        omega

/-- The review fold over the comment list never touches commit counters. -/
lemma comments_fold_commits (d : Int) :
    ∀ (cs : List Comment) (m),
      (lookupDay (cs.foldl
          (fun m c => if isReviewType c then bumpReviews m (dayOf c.created_at) else m) m)
        d).commits = (lookupDay m d).commits
  | [], m => by simp
  | c :: cs, m => by
      rw [List.foldl_cons, comments_fold_commits d cs]
      by_cases hr : isReviewType c
      · rw [if_pos hr, lookupDay_bumpReviews_commits]
      · rw [if_neg hr]

/-- The commit fold accumulates, per day, the count of commits on that day. -/
lemma commits_fold_commits (d : Int) :
    ∀ (ks : List CommitRecord) (m),
      (lookupDay (ks.foldl (fun m k => bumpCommits m (dayOf k.date)) m) d).commits =
      (lookupDay m d).commits + ks.countP (fun k => dayOf k.date == d)
  | [], m => by simp
  | k :: ks, m => by
      rw [List.foldl_cons, List.countP_cons, commits_fold_commits d ks,
        lookupDay_bumpCommits_commits]
      by_cases hd : dayOf k.date = d
      · rw [if_pos hd.symm, if_pos (beq_iff_eq.mpr hd)]
        omega
      · rw [if_neg (fun hh : d = dayOf k.date => hd hh.symm),
          if_neg (fun hh : (dayOf k.date == d) = true => hd (beq_iff_eq.mp hh))]
        omega

/-- The commit fold never touches review counters. -/
lemma commits_fold_reviews (d : Int) :
    ∀ (ks : List CommitRecord) (m),
      (lookupDay (ks.foldl (fun m k => bumpCommits m (dayOf k.date)) m) d).reviews =
      (lookupDay m d).reviews
  | [], m => by simp
  | k :: ks, m => by
      rw [List.foldl_cons, commits_fold_reviews d ks, lookupDay_bumpCommits_reviews]

/-- The day dictionary's review counter equals the per-day count of
review-type comments. -/
lemma activitiesByDay_reviews (pr : PRData) (d : Int) :
    (lookupDay (activitiesByDay pr) d).reviews =
      pr.comments.countP (fun c => isReviewType c && (dayOf c.created_at == d)) := by
  show (lookupDay (pr.commits.foldl (fun m k => bumpCommits m (dayOf k.date))
      (pr.comments.foldl
        (fun m c => if isReviewType c then bumpReviews m (dayOf c.created_at) else m) []))
    d).reviews = _
  rw [commits_fold_reviews, comments_fold_reviews, lookupDay_nil]
  simp

/-- The day dictionary's commit counter equals the per-day count of commits. -/
lemma activitiesByDay_commits (pr : PRData) (d : Int) :
    (lookupDay (activitiesByDay pr) d).commits =
      pr.commits.countP (fun k => dayOf k.date == d) := by
  show (lookupDay (pr.commits.foldl (fun m k => bumpCommits m (dayOf k.date))
      (pr.comments.foldl
        (fun m c => if isReviewType c then bumpReviews m (dayOf c.created_at) else m) []))
    d).commits = _
  rw [commits_fold_commits, comments_fold_commits, lookupDay_nil]
  simp

/-- A positive per-day review count means the day is a review date. -/
lemma countR_pos_iff (pr : PRData) (d : Int) :
    0 < pr.comments.countP (fun c => isReviewType c && (dayOf c.created_at == d)) ↔
      d ∈ specReviewDates pr := by
  rw [List.countP_pos_iff]
  simp only [specReviewDates, List.mem_map, List.mem_filter, Bool.and_eq_true, beq_iff_eq]
  constructor
  · rintro ⟨c, hc, hr, hd⟩
    exact ⟨c, ⟨hc, hr⟩, hd⟩
  · rintro ⟨c, ⟨hc, hr⟩, hd⟩
    exact ⟨c, hc, hr, hd⟩

/-- A positive per-day commit count means the day is a commit date. -/
lemma countC_pos_iff (pr : PRData) (d : Int) :
    0 < pr.commits.countP (fun k => dayOf k.date == d) ↔ d ∈ specCommitDates pr := by
  rw [List.countP_pos_iff]
  simp only [specCommitDates, List.mem_map, beq_iff_eq]

/-- The dictionary's review counter is positive exactly on review dates. -/
lemma reviews_pos_iff (pr : PRData) (d : Int) :
    0 < (lookupDay (activitiesByDay pr) d).reviews ↔ d ∈ specReviewDates pr := by
  rw [activitiesByDay_reviews]; exact countR_pos_iff pr d

/-- The dictionary's commit counter is positive exactly on commit dates. -/
lemma commits_pos_iff (pr : PRData) (d : Int) :
    0 < (lookupDay (activitiesByDay pr) d).commits ↔ d ∈ specCommitDates pr := by
  rw [activitiesByDay_commits]; exact countC_pos_iff pr d

/-- Day keys after a review bump: the old keys plus (possibly) the new day. -/
lemma mem_keys_bumpReviews (d d' : Int) :
    ∀ m, d' ∈ (bumpReviews m d).map (·.1) ↔ d' ∈ m.map (·.1) ∨ d' = d
  | [] => by simp [bumpReviews_nil]
  | (k, a) :: rest => by
      rw [bumpReviews_cons]
      by_cases hk : k = d
      · rw [if_pos hk]
        simp only [List.map_cons, List.mem_cons]
        constructor
        · rintro (h | h)
          · left; left; exact h
          · left; right; exact h
        · rintro ((h | h) | h)
          · left; exact h
          · right; exact h
          · left; exact h.trans hk.symm
      · rw [if_neg hk]
        simp only [List.map_cons, List.mem_cons, mem_keys_bumpReviews d d' rest]
        tauto

/-- Day keys after a commit bump: the old keys plus (possibly) the new day. -/
lemma mem_keys_bumpCommits (d d' : Int) :
    ∀ m, d' ∈ (bumpCommits m d).map (·.1) ↔ d' ∈ m.map (·.1) ∨ d' = d
  | [] => by simp [bumpCommits_nil]
  | (k, a) :: rest => by
      rw [bumpCommits_cons]
      by_cases hk : k = d
      · rw [if_pos hk]
        simp only [List.map_cons, List.mem_cons]
        constructor
        · rintro (h | h)
          · left; left; exact h
          · left; right; exact h
        · rintro ((h | h) | h)
          · left; exact h
          · right; exact h
          · left; exact h.trans hk.symm
      · rw [if_neg hk]
        simp only [List.map_cons, List.mem_cons, mem_keys_bumpCommits d d' rest]
        tauto

/-- A review bump keeps the day keys duplicate-free. -/
lemma nodup_keys_bumpReviews (d : Int) :
    ∀ m, ((m.map (·.1)).Nodup) → ((bumpReviews m d).map (·.1)).Nodup
  | [] => by intro; simp [bumpReviews_nil]
  | (k, a) :: rest => by
      intro h
      rw [bumpReviews_cons]
      by_cases hk : k = d
      · rw [if_pos hk]; exact h
      · rw [if_neg hk]
        simp only [List.map_cons] at h ⊢
        rw [List.nodup_cons] at h ⊢
        refine ⟨?_, nodup_keys_bumpReviews d rest h.2⟩
        intro hmem
        rcases (mem_keys_bumpReviews d k rest).mp hmem with hm | hm
        · exact h.1 hm
        · exact hk hm

/-- A commit bump keeps the day keys duplicate-free. -/
lemma nodup_keys_bumpCommits (d : Int) :
    ∀ m, ((m.map (·.1)).Nodup) → ((bumpCommits m d).map (·.1)).Nodup
  | [] => by intro; simp [bumpCommits_nil]
  | (k, a) :: rest => by
      intro h
      rw [bumpCommits_cons]
      by_cases hk : k = d
      · rw [if_pos hk]; exact h
      · rw [if_neg hk]
        simp only [List.map_cons] at h ⊢
        rw [List.nodup_cons] at h ⊢
        refine ⟨?_, nodup_keys_bumpCommits d rest h.2⟩
        intro hmem
        rcases (mem_keys_bumpCommits d k rest).mp hmem with hm | hm
        · exact h.1 hm
        · exact hk hm

/-- Day keys after the comment fold: the old keys plus the review dates hit. -/
lemma mem_keys_comments_fold (d : Int) :
    ∀ (cs : List Comment) (m),
      d ∈ ((cs.foldl
          (fun m c => if isReviewType c then bumpReviews m (dayOf c.created_at) else m) m).map
        (·.1)) ↔
        d ∈ m.map (·.1) ∨
          0 < cs.countP (fun c => isReviewType c && (dayOf c.created_at == d))
  | [], m => by simp
  | c :: cs, m => by
      rw [List.foldl_cons, List.countP_cons]
      by_cases hr : isReviewType c
      · by_cases hd : dayOf c.created_at = d
        · rw [if_pos (show (isReviewType c && (dayOf c.created_at == d)) = true by
              rw [hr, Bool.true_and]; exact beq_iff_eq.mpr hd),
            if_pos hr, mem_keys_comments_fold d cs, mem_keys_bumpReviews]
          constructor
          · intro _; right; omega
          · intro _; left; right; exact hd.symm
        · rw [if_neg (fun hh : (isReviewType c && (dayOf c.created_at == d)) = true =>
              hd (beq_iff_eq.mp ((Bool.and_eq_true _ _).mp hh).2)),
            if_pos hr, mem_keys_comments_fold d cs, mem_keys_bumpReviews, Nat.add_zero]
          have hnd : ¬d = dayOf c.created_at := fun hh => hd hh.symm
          tauto
      · rw [if_neg (fun hh : (isReviewType c && (dayOf c.created_at == d)) = true =>
            hr ((Bool.and_eq_true _ _).mp hh).1),
          if_neg hr, mem_keys_comments_fold d cs, Nat.add_zero]

/-- Day keys after the commit fold: the old keys plus the commit dates hit. -/
lemma mem_keys_commits_fold (d : Int) :
    ∀ (ks : List CommitRecord) (m),
      d ∈ ((ks.foldl (fun m k => bumpCommits m (dayOf k.date)) m).map (·.1)) ↔
        d ∈ m.map (·.1) ∨ 0 < ks.countP (fun k => dayOf k.date == d)
  | [], m => by simp
  | k :: ks, m => by
      rw [List.foldl_cons, List.countP_cons]
      by_cases hd : dayOf k.date = d
      · rw [if_pos (beq_iff_eq.mpr hd), mem_keys_commits_fold d ks, mem_keys_bumpCommits]
        constructor
        · intro _; right; omega
        · intro _; left; right; exact hd.symm
      · rw [if_neg (fun hh : (dayOf k.date == d) = true => hd (beq_iff_eq.mp hh)),
          mem_keys_commits_fold d ks, mem_keys_bumpCommits, Nat.add_zero]
        have hnd : ¬d = dayOf k.date := fun hh => hd hh.symm
        tauto

/-- The comment fold keeps the day keys duplicate-free. -/
lemma nodup_keys_comments_fold :
    ∀ (cs : List Comment) (m), ((m.map (·.1)).Nodup) →
      (((cs.foldl
          (fun m c => if isReviewType c then bumpReviews m (dayOf c.created_at) else m) m).map
        (·.1)).Nodup)
  | [], m => fun h => h
  | c :: cs, m => by
      intro h
      rw [List.foldl_cons]
      by_cases hr : isReviewType c
      · rw [if_pos hr]
        exact nodup_keys_comments_fold cs _ (nodup_keys_bumpReviews _ m h)
      · rw [if_neg hr]
        exact nodup_keys_comments_fold cs m h

/-- The commit fold keeps the day keys duplicate-free. -/
lemma nodup_keys_commits_fold :
    ∀ (ks : List CommitRecord) (m), ((m.map (·.1)).Nodup) →
      (((ks.foldl (fun m k => bumpCommits m (dayOf k.date)) m).map (·.1)).Nodup)
  | [], _ => fun h => h
  | _ :: ks, m => fun h =>
      nodup_keys_commits_fold ks _ (nodup_keys_bumpCommits _ m h)

/-- The day dictionary has duplicate-free keys. -/
lemma nodup_keys_activitiesByDay (pr : PRData) :
    (((activitiesByDay pr).map (·.1)).Nodup) := by
  show ((pr.commits.foldl (fun m k => bumpCommits m (dayOf k.date))
      (pr.comments.foldl
        (fun m c => if isReviewType c then bumpReviews m (dayOf c.created_at) else m) [])).map
    (·.1)).Nodup
  exact nodup_keys_commits_fold _ _ (nodup_keys_comments_fold _ _ (by simp))

/-- The day dictionary's keys are exactly the activity dates of the spec. -/
lemma mem_keys_activitiesByDay (pr : PRData) (d : Int) :
    d ∈ (activitiesByDay pr).map (·.1) ↔
      d ∈ specReviewDates pr ∨ d ∈ specCommitDates pr := by
  show d ∈ ((pr.commits.foldl (fun m k => bumpCommits m (dayOf k.date))
      (pr.comments.foldl
        (fun m c => if isReviewType c then bumpReviews m (dayOf c.created_at) else m) [])).map
    (·.1)) ↔ _
  rw [mem_keys_commits_fold, mem_keys_comments_fold, countR_pos_iff, countC_pos_iff]
  simp

/-- The sorted key list of the day dictionary equals the sorted spec date
list. -/
lemma sorted_dates_eq (pr : PRData) :
    sortInts ((activitiesByDay pr).map (·.1)) = sortInts (specActivityDates pr) := by
  have hperm : ((activitiesByDay pr).map (·.1)).Perm (specActivityDates pr) := by
    unfold specActivityDates
    rw [List.perm_ext_iff_of_nodup (nodup_keys_activitiesByDay pr) (List.nodup_dedup _)]
    intro a
    rw [List.mem_dedup, List.mem_append]
    exact mem_keys_activitiesByDay pr a
  exact List.eq_of_perm_of_sorted
    ((List.perm_insertionSort _ _).trans (hperm.trans (List.perm_insertionSort _ _).symm))
    (List.sorted_insertionSort _ _) (List.sorted_insertionSort _ _)

/-- On every date list, the dictionary-based adjacent-pair count agrees with
the spec-worded one. -/
lemma countAdj_eq_spec (pr : PRData) :
    ∀ l, countAdjCycles (activitiesByDay pr) l = specCountAdj pr l := by
  intro l
  induction l with
  | nil => rfl
  | cons d rest ih =>
      cases rest with
      | nil => rfl
      | cons d' rest' =>
          show (if 0 < (lookupDay (activitiesByDay pr) d).reviews ∧
              0 < (lookupDay (activitiesByDay pr) d').commits then 1 else 0) +
              countAdjCycles (activitiesByDay pr) (d' :: rest') =
            (if d ∈ specReviewDates pr ∧ d' ∈ specCommitDates pr then 1 else 0) +
              specCountAdj pr (d' :: rest')
          rw [ih]
          congr 1
          rw [if_congr (and_congr (reviews_pos_iff pr d) (commits_pos_iff pr d')) rfl rfl]

/-- Claim C3: the review-cycles field of the timeline metrics is computed
exactly as the spec words it — bucket review events and commits by calendar
date, sort the dates with recorded activity, count adjacent pairs (d, d')
where d has a review event and d' (the next recorded date, not necessarily
the next calendar day) has a commit, and floor the result at 1. -/
theorem C3_review_cycles_as_specified (pr : PRData) :
    (analyze_timeline pr).review_cycles = spec_review_cycles pr := by
  have h : (analyze_timeline pr).review_cycles =
      max 1 (countAdjCycles (activitiesByDay pr)
        (sortInts ((activitiesByDay pr).map (·.1)))) := rfl
  rw [h, sorted_dates_eq, countAdj_eq_spec]
  rfl

end PRLM
